import Mathlib

/-
Verification of the `explicit-begin` lint rule
(src/verilog/analysis/checkers/explicit_begin_rule.cc).

The rule is a token-stream automaton with five states that checks that
control-flow keywords (if, else, always and variants, forever, initial,
for, foreach, while) are followed by an explicit `begin` block delimiter.
The embedding below translates the C++ member functions `Configure`,
`IsTokenEnabled`, `HandleToken` and `Report` into pure Lean functions over
an explicit engine-state record.
-/

namespace Verible

/-- The token classifications relevant to the rule, from
verilog_token_enum.h as used in explicit_begin_rule.cc.  `otherTok`
stands for every other member of the (closed) token enumeration: the rule
treats all of them uniformly through `default:` branches. -/
inductive VTokenEnum where
  | TK_SPACE
  | TK_NEWLINE
  | TK_COMMENT_BLOCK
  | TK_EOL_COMMENT
  | TK_always_comb
  | TK_always_latch
  | TK_forever
  | TK_initial
  | TK_always_ff
  | TK_foreach
  | TK_for
  | TK_if
  | TK_while
  | TK_always
  | TK_else
  | TK_begin
  | atSign
  | star
  | lparen
  | rparen
  | otherTok (code : Nat)
deriving DecidableEq

/-- A token: classification tag, literal text, and source position
(byte offset), mirroring verible::TokenInfo as read by the rule. -/
structure TokenInfo where
  token_enum : VTokenEnum
  text : String
  left : Nat
deriving DecidableEq

/-- The eleven per-keyword enable flags of the rule, all defaulting to
true, mirroring the bool members of ExplicitBeginRule. -/
structure RuleConfig where
  if_enable_ : Bool := true
  else_enable_ : Bool := true
  always_enable_ : Bool := true
  always_comb_enable_ : Bool := true
  always_latch_enable_ : Bool := true
  always_ff_enable_ : Bool := true
  forever_enable_ : Bool := true
  initial_enable_ : Bool := true
  for_enable_ : Bool := true
  foreach_enable_ : Bool := true
  while_enable_ : Bool := true
deriving DecidableEq

/-- The automaton states of ExplicitBeginRule::State. -/
inductive State where
  | kNormal
  | kInAlways
  | kInElse
  | kInCondition
  | kExpectBegin
deriving DecidableEq

/-- A lint violation record: the cited token and the message string,
mirroring verible::LintViolation as constructed by the rule. -/
structure LintViolation where
  token : TokenInfo
  reason : String
deriving DecidableEq

/-- The fixed message suffix kMessage of explicit_begin_rule.cc. -/
def kMessage : String := " block constructs shall explicitly use begin/end."

/-- The whole mutable state of one rule-engine instance: configuration
flags, automaton state, tracked trigger token, parenthesis depth and the
accumulated violation set. -/
structure ExplicitBeginRule where
  config : RuleConfig
  state_ : State
  start_token_ : TokenInfo
  condition_expr_level_ : Int
  violations_ : List LintViolation
deriving DecidableEq

/-- Default-constructed token (placeholder value of start_token_ before
any trigger keyword has been seen). -/
def defaultToken : TokenInfo := { token_enum := .otherTok 0, text := "", left := 0 }

/-- A freshly constructed engine instance with the given configuration:
state kNormal, no violations. -/
def initRule (cfg : RuleConfig) : ExplicitBeginRule :=
  { config := cfg
    state_ := .kNormal
    start_token_ := defaultToken
    condition_expr_level_ := 0
    violations_ := [] }

/-- ExplicitBeginRule::IsTokenEnabled: maps each monitored keyword to its
enable flag; every other token is not enabled. -/
def IsTokenEnabled (r : ExplicitBeginRule) (token : TokenInfo) : Bool :=
  match token.token_enum with
  | .TK_always_comb => r.config.always_comb_enable_
  | .TK_always_latch => r.config.always_latch_enable_
  | .TK_forever => r.config.forever_enable_
  | .TK_initial => r.config.initial_enable_
  | .TK_always_ff => r.config.always_ff_enable_
  | .TK_foreach => r.config.foreach_enable_
  | .TK_for => r.config.for_enable_
  | .TK_if => r.config.if_enable_
  | .TK_while => r.config.while_enable_
  | .TK_always => r.config.always_enable_
  | .TK_else => r.config.else_enable_
  | _ => false

/-- The early-return filter at the top of HandleToken: whitespace and
comments are discarded before the automaton sees the token. -/
def isFormatting (e : VTokenEnum) : Bool :=
  match e with
  | .TK_SPACE | .TK_NEWLINE | .TK_COMMENT_BLOCK | .TK_EOL_COMMENT => true
  | _ => false

/-- std::set insertion on the violations collection: inserting an element
already present leaves the set unchanged. -/
def insertViolation (vs : List LintViolation) (v : LintViolation) : List LintViolation :=
  if v ∈ vs then vs else vs ++ [v]

/-- The LintViolation built at the raise_violation site: cites the trigger
token and the message StrCat(start_token_.text(), kMessage,
" Expected begin, got ", token.text()). -/
def violationFor (s t : TokenInfo) : LintViolation :=
  { token := s, reason := s.text ++ kMessage ++ " Expected begin, got " ++ t.text }

/-- The raise_violation epilogue of HandleToken: insert the violation,
reset condition_expr_level_ to 0 and state_ to kNormal. -/
def raiseViolationOn (r : ExplicitBeginRule) (token : TokenInfo) : ExplicitBeginRule :=
  { r with
    violations_ := insertViolation r.violations_ (violationFor r.start_token_ token)
    condition_expr_level_ := 0
    state_ := State.kNormal }

/-- ExplicitBeginRule::HandleToken, translated case for case from the
switch statements of the C++ source. -/
def HandleToken (r : ExplicitBeginRule) (token : TokenInfo) : ExplicitBeginRule :=
  if isFormatting token.token_enum then r
  else
    match r.state_ with
    | .kNormal =>
      if !(IsTokenEnabled r token) then r
      else
        match token.token_enum with
        | .TK_always_comb | .TK_always_latch | .TK_forever | .TK_initial =>
          { r with start_token_ := token, state_ := State.kExpectBegin }
        | .TK_always_ff | .TK_foreach | .TK_for | .TK_if | .TK_while =>
          { r with condition_expr_level_ := 0, start_token_ := token,
                   state_ := State.kInCondition }
        | .TK_always =>
          { r with condition_expr_level_ := 0, start_token_ := token,
                   state_ := State.kInAlways }
        | .TK_else =>
          { r with start_token_ := token, state_ := State.kInElse }
        | _ => r
    | .kInAlways =>
      match token.token_enum with
      | .atSign | .star => r
      | .TK_begin => { r with state_ := State.kNormal }
      | .lparen => { r with condition_expr_level_ := 1, state_ := State.kInCondition }
      | _ => raiseViolationOn r token
    | .kInElse =>
      match token.token_enum with
      | .TK_if =>
        if r.config.if_enable_ then
          { r with condition_expr_level_ := 0, start_token_ := token,
                   state_ := State.kInCondition }
        else
          { r with state_ := State.kNormal }
      | .TK_begin => { r with state_ := State.kNormal }
      | _ => raiseViolationOn r token
    | .kInCondition =>
      match token.token_enum with
      | .lparen => { r with condition_expr_level_ := r.condition_expr_level_ + 1 }
      | .rparen =>
        if r.condition_expr_level_ - 1 = 0 then
          { r with condition_expr_level_ := r.condition_expr_level_ - 1,
                   state_ := State.kExpectBegin }
        else
          { r with condition_expr_level_ := r.condition_expr_level_ - 1 }
      | _ => r
    | .kExpectBegin =>
      match token.token_enum with
      | .TK_begin => { r with state_ := State.kNormal }
      | _ => raiseViolationOn r token

/-- Feeding a whole token sequence to the engine, one HandleToken call per
token, in stream order. -/
def runTokens (r : ExplicitBeginRule) (tokens : List TokenInfo) : ExplicitBeginRule :=
  tokens.foldl HandleToken r

/-- ExplicitBeginRule::Report: returns the accumulated violation set
unchanged (the descriptor metadata it is paired with is static data). -/
def Report (r : ExplicitBeginRule) : List LintViolation := r.violations_

/-- Token-construction helper for the concrete example streams. -/
def mkTok (e : VTokenEnum) (s : String) (n : Nat) : TokenInfo :=
  { token_enum := e, text := s, left := n }

/-- Token stream of `if (x) begin ... end`. -/
def streamIfBegin : List TokenInfo :=
  [mkTok .TK_if "if" 0, mkTok .lparen "(" 3, mkTok (.otherTok 1) "x" 4,
   mkTok .rparen ")" 5, mkTok .TK_begin "begin" 7, mkTok (.otherTok 2) "y" 13,
   mkTok (.otherTok 3) "=" 15, mkTok (.otherTok 4) "1" 17, mkTok (.otherTok 5) ";" 18,
   mkTok (.otherTok 6) "end" 20]

/-- Token stream of `if (x) y = 1;` (no begin after the closing paren). -/
def streamIfNoBegin : List TokenInfo :=
  [mkTok .TK_if "if" 0, mkTok .lparen "(" 3, mkTok (.otherTok 1) "x" 4,
   mkTok .rparen ")" 5, mkTok (.otherTok 2) "y" 7, mkTok (.otherTok 3) "=" 9,
   mkTok (.otherTok 4) "1" 11, mkTok (.otherTok 5) ";" 12]

/-- The single violation produced on streamIfNoBegin: cites the `if`
trigger token, and the message ends with the offending token text `y`. -/
def vIfY : LintViolation := violationFor (mkTok .TK_if "if" 0) (mkTok (.otherTok 2) "y" 7)

end Verible

namespace Verible

/-- C1: with the if check enabled (default configuration), the token
sequence of `if (x) begin ... end` produces zero violations, while the
sequence of `if (x) y = 1;` produces exactly one violation whose cited
trigger token is the `if` token and whose message ends with the text of
the offending token `y`. -/
theorem c1_if_begin_examples :
    Report (runTokens (initRule {}) streamIfBegin) = [] ∧
    Report (runTokens (initRule {}) streamIfNoBegin) = [vIfY] ∧
    vIfY.token = mkTok .TK_if "if" 0 ∧
    vIfY.reason =
      "if block constructs shall explicitly use begin/end. Expected begin, got " ++ "y" := by
  refine ⟨by decide, by decide, by decide, by decide⟩

/-- Token stream of `if ((a && (b || c))) begin`. -/
def streamNestedParens : List TokenInfo :=
  [mkTok .TK_if "if" 0, mkTok .lparen "(" 3, mkTok .lparen "(" 4,
   mkTok (.otherTok 1) "a" 5, mkTok (.otherTok 2) "&&" 7, mkTok .lparen "(" 10,
   mkTok (.otherTok 3) "b" 11, mkTok (.otherTok 4) "||" 13, mkTok (.otherTok 5) "c" 16,
   mkTok .rparen ")" 17, mkTok .rparen ")" 18, mkTok .rparen ")" 19,
   mkTok .TK_begin "begin" 21]

/-- C2: in state kInCondition every `(` increments the depth counter by
one (and changes nothing else), every `)` decrements it by one, and the
transition to kExpectBegin happens exactly when a `)` brings the depth to
0; consequently `if ((a && (b || c))) begin` leaves kInCondition only on
the last closing parenthesis and produces no violation. -/
theorem c2_condition_depth :
    (∀ (r : ExplicitBeginRule) (token : TokenInfo),
      r.state_ = State.kInCondition → token.token_enum = VTokenEnum.lparen →
        HandleToken r token =
          { r with condition_expr_level_ := r.condition_expr_level_ + 1 }) ∧
    (∀ (r : ExplicitBeginRule) (token : TokenInfo),
      r.state_ = State.kInCondition → token.token_enum = VTokenEnum.rparen →
        (HandleToken r token).condition_expr_level_ = r.condition_expr_level_ - 1 ∧
        ((HandleToken r token).state_ = State.kExpectBegin ↔
          r.condition_expr_level_ - 1 = 0) ∧
        (HandleToken r token).violations_ = r.violations_) ∧
    Report (runTokens (initRule {}) streamNestedParens) = [] := by
  refine ⟨?_, ?_, by decide⟩
  · intro r token hs he
    simp [HandleToken, isFormatting, hs, he]
  · intro r token hs he
    by_cases hd : r.condition_expr_level_ - 1 = 0
    · simp [HandleToken, isFormatting, hs, he, hd]
    · simp [HandleToken, isFormatting, hs, he, hd]

/-- Concrete engine state in kInCondition at depth 2, used to instantiate
the universally quantified theorems. -/
def rInCondWit : ExplicitBeginRule :=
  { config := {}
    state_ := State.kInCondition
    start_token_ := mkTok .TK_if "if" 0
    condition_expr_level_ := 2
    violations_ := [] }

/-- Witness for C2 at a concrete state of depth 2: `(` takes the depth to
3 and `)` takes it to 1. -/
theorem c2_condition_depth_witness :
    (HandleToken rInCondWit (mkTok .lparen "(" 9)).condition_expr_level_ = 3 ∧
    (HandleToken rInCondWit (mkTok .rparen ")" 9)).condition_expr_level_ = 1 := by
  constructor
  · rw [c2_condition_depth.1 rInCondWit (mkTok .lparen "(" 9) rfl rfl]
    decide
  · rw [(c2_condition_depth.2.1 rInCondWit (mkTok .rparen ")" 9) rfl rfl).1]
    decide

/-- C3: formatting tokens (space, newline, block comment, end-of-line
comment) leave the entire engine state unchanged in every state, and
therefore running any stream produces exactly the same final engine state
as running the stream with all formatting tokens filtered out. -/
theorem c3_formatting_transparent :
    (∀ (r : ExplicitBeginRule) (token : TokenInfo),
      isFormatting token.token_enum = true → HandleToken r token = r) ∧
    (∀ (r : ExplicitBeginRule) (tokens : List TokenInfo),
      runTokens r tokens =
        runTokens r (tokens.filter (fun t => !(isFormatting t.token_enum)))) := by
  have h1 : ∀ (r : ExplicitBeginRule) (token : TokenInfo),
      isFormatting token.token_enum = true → HandleToken r token = r := by
    intro r token hf
    simp [HandleToken, hf]
  refine ⟨h1, ?_⟩
  intro r tokens
  induction tokens generalizing r with
  | nil => rfl
  | cons t ts ih =>
    by_cases hf : isFormatting t.token_enum = true
    · have hid : HandleToken r t = r := h1 r t hf
      simp only [runTokens, List.foldl_cons, List.filter_cons, hf, Bool.not_true,
        Bool.false_eq_true, if_false, hid]
      exact ih r
    · simp only [runTokens, List.foldl_cons, List.filter_cons,
        Bool.not_eq_true] at *
      simp only [hf, Bool.not_false, if_true]
      exact ih (HandleToken r t)

/-- Witness for C3: a space token fed to a fresh engine leaves it
unchanged. -/
theorem c3_formatting_transparent_witness :
    HandleToken (initRule {}) (mkTok .TK_SPACE " " 2) = initRule {} :=
  c3_formatting_transparent.1 (initRule {}) (mkTok .TK_SPACE " " 2) rfl

/-- C4: whenever a violation fires (a non-formatting token that is not
accepted in kInAlways, kInElse or kExpectBegin), the engine's new value
is exactly the old one with one record inserted into the violation set —
citing the trigger token and the message built from its text, the fixed
suffix and the offending token's text — the depth reset to 0 and the
state reset to kNormal; in particular start_token_ is untouched and the
offending token opens no new pending construct in that call, even when it
is itself a monitored trigger keyword. -/
theorem c4_violation_policy :
    ∀ (r : ExplicitBeginRule) (token : TokenInfo),
      isFormatting token.token_enum = false →
      ((r.state_ = State.kInAlways ∧
          token.token_enum ∉ [VTokenEnum.atSign, VTokenEnum.star,
            VTokenEnum.TK_begin, VTokenEnum.lparen]) ∨
       (r.state_ = State.kInElse ∧
          token.token_enum ∉ [VTokenEnum.TK_if, VTokenEnum.TK_begin]) ∨
       (r.state_ = State.kExpectBegin ∧ token.token_enum ≠ VTokenEnum.TK_begin)) →
      HandleToken r token =
        { r with
          violations_ := insertViolation r.violations_
            { token := r.start_token_
              reason := r.start_token_.text ++ kMessage ++ " Expected begin, got "
                ++ token.text }
          condition_expr_level_ := 0
          state_ := State.kNormal } := by
  intro r token hfmt hcase
  obtain ⟨e, txt, loc⟩ := token
  rcases hcase with ⟨hs, hn⟩ | ⟨hs, hn⟩ | ⟨hs, hn⟩ <;> cases e <;>
    simp_all [HandleToken, isFormatting, raiseViolationOn, violationFor]

/-- Concrete engine state in kExpectBegin with the `if` token recorded as
trigger, used to instantiate the violation-policy theorem. -/
def rExpectWit : ExplicitBeginRule :=
  { config := {}
    state_ := State.kExpectBegin
    start_token_ := mkTok .TK_if "if" 0
    condition_expr_level_ := 0
    violations_ := [] }

/-- Witness for C4: in kExpectBegin, the offending token `y` produces the
single violation record and resets the state to kNormal. -/
theorem c4_violation_policy_witness :
    (HandleToken rExpectWit (mkTok (.otherTok 2) "y" 7)).violations_ = [vIfY] ∧
    (HandleToken rExpectWit (mkTok (.otherTok 2) "y" 7)).state_ = State.kNormal := by
  have h := c4_violation_policy rExpectWit (mkTok (.otherTok 2) "y" 7) rfl
    (Or.inr (Or.inr ⟨rfl, by decide⟩))
  rw [h]
  exact ⟨by decide, rfl⟩

/-- Token stream of `always @(posedge clk) begin`. -/
def streamAlwaysBegin : List TokenInfo :=
  [mkTok .TK_always "always" 0, mkTok .atSign "@" 7, mkTok .lparen "(" 8,
   mkTok (.otherTok 1) "posedge" 9, mkTok (.otherTok 2) "clk" 17,
   mkTok .rparen ")" 20, mkTok .TK_begin "begin" 22]

/-- Token stream of `always @(posedge clk) y = 1;`. -/
def streamAlwaysNoBegin : List TokenInfo :=
  [mkTok .TK_always "always" 0, mkTok .atSign "@" 7, mkTok .lparen "(" 8,
   mkTok (.otherTok 1) "posedge" 9, mkTok (.otherTok 2) "clk" 17,
   mkTok .rparen ")" 20, mkTok (.otherTok 3) "y" 22, mkTok (.otherTok 4) "=" 24,
   mkTok (.otherTok 5) "1" 26, mkTok (.otherTok 6) ";" 27]

/-- The single violation produced on streamAlwaysNoBegin. -/
def vAlwaysY : LintViolation :=
  violationFor (mkTok .TK_always "always" 0) (mkTok (.otherTok 3) "y" 22)

/-- C5: in state kInAlways, `@` and `*` are ignored, `begin` returns the
automaton to kNormal with no violation, `(` moves it to kInCondition with
depth 1, and any other non-formatting token raises a violation; hence
`always @(posedge clk) begin` produces no violation and
`always @(posedge clk) y = 1;` produces exactly one. -/
theorem c5_inalways :
    (∀ (r : ExplicitBeginRule) (token : TokenInfo),
      r.state_ = State.kInAlways →
      (token.token_enum = VTokenEnum.atSign ∨ token.token_enum = VTokenEnum.star) →
      HandleToken r token = r) ∧
    (∀ (r : ExplicitBeginRule) (token : TokenInfo),
      r.state_ = State.kInAlways → token.token_enum = VTokenEnum.TK_begin →
      HandleToken r token = { r with state_ := State.kNormal }) ∧
    (∀ (r : ExplicitBeginRule) (token : TokenInfo),
      r.state_ = State.kInAlways → token.token_enum = VTokenEnum.lparen →
      HandleToken r token =
        { r with condition_expr_level_ := 1, state_ := State.kInCondition }) ∧
    (∀ (r : ExplicitBeginRule) (token : TokenInfo),
      r.state_ = State.kInAlways → isFormatting token.token_enum = false →
      token.token_enum ∉ [VTokenEnum.atSign, VTokenEnum.star,
        VTokenEnum.TK_begin, VTokenEnum.lparen] →
      (HandleToken r token).violations_ =
        insertViolation r.violations_ (violationFor r.start_token_ token)) ∧
    Report (runTokens (initRule {}) streamAlwaysBegin) = [] ∧
    Report (runTokens (initRule {}) streamAlwaysNoBegin) = [vAlwaysY] := by
  refine ⟨?_, ?_, ?_, ?_, by decide, by decide⟩
  · intro r token hs he
    rcases he with he | he <;> simp [HandleToken, isFormatting, hs, he]
  · intro r token hs he
    simp [HandleToken, isFormatting, hs, he]
  · intro r token hs he
    simp [HandleToken, isFormatting, hs, he]
  · intro r token hs hfmt hn
    obtain ⟨e, txt, loc⟩ := token
    cases e <;> simp_all [HandleToken, isFormatting, raiseViolationOn, violationFor]

/-- Concrete engine state in kInAlways with the `always` token recorded
as trigger, used to instantiate the kInAlways-transition theorems. -/
def rInAlwaysWit : ExplicitBeginRule :=
  { config := {}
    state_ := State.kInAlways
    start_token_ := mkTok .TK_always "always" 0
    condition_expr_level_ := 0
    violations_ := [] }

/-- Witness for C5 at a concrete kInAlways state: `@` is ignored and `(`
enters kInCondition at depth 1. -/
theorem c5_inalways_witness :
    HandleToken rInAlwaysWit (mkTok .atSign "@" 7) = rInAlwaysWit ∧
    HandleToken rInAlwaysWit (mkTok .lparen "(" 8) =
      { rInAlwaysWit with condition_expr_level_ := 1,
                          state_ := State.kInCondition } := by
  constructor
  · exact c5_inalways.1 rInAlwaysWit (mkTok .atSign "@" 7) rfl (Or.inl rfl)
  · exact c5_inalways.2.2.1 rInAlwaysWit (mkTok .lparen "(" 8) rfl rfl

/-- Configuration with the if check disabled and all other checks at
their defaults. -/
def cfgIfOff : RuleConfig := { if_enable_ := false }

/-- Token stream of `else if (x) y;`. -/
def streamElseIfNoBegin : List TokenInfo :=
  [mkTok .TK_else "else" 0, mkTok .TK_if "if" 5, mkTok .lparen "(" 8,
   mkTok (.otherTok 1) "x" 9, mkTok .rparen ")" 10, mkTok (.otherTok 2) "y" 12,
   mkTok (.otherTok 3) ";" 13]

/-- C6: a token whose enable flag is false (more generally, any token
IsTokenEnabled rejects) is ignored in state kNormal — no state change, no
trigger recorded — so a construct it opens yields zero violations even
without a begin; and in kInElse an `if` with the if flag disabled goes
straight to kNormal with no violation and no pending obligation. -/
theorem c6_disabled_flags :
    (∀ (r : ExplicitBeginRule) (token : TokenInfo),
      r.state_ = State.kNormal → IsTokenEnabled r token = false →
      HandleToken r token = r) ∧
    (∀ (r : ExplicitBeginRule) (token : TokenInfo),
      r.state_ = State.kInElse → token.token_enum = VTokenEnum.TK_if →
      r.config.if_enable_ = false →
      HandleToken r token = { r with state_ := State.kNormal }) ∧
    Report (runTokens (initRule cfgIfOff) streamIfNoBegin) = [] ∧
    Report (runTokens (initRule cfgIfOff) streamElseIfNoBegin) = [] := by
  refine ⟨?_, ?_, by decide, by decide⟩
  · intro r token hs he
    by_cases hf : isFormatting token.token_enum = true
    · simp [HandleToken, hf]
    · simp only [Bool.not_eq_true] at hf
      simp [HandleToken, hf, hs, he]
  · intro r token hs he hif
    simp [HandleToken, isFormatting, hs, he, hif]

/-- Concrete engine state in kInElse under cfgIfOff, with the `else`
token recorded as trigger. -/
def rInElseWit : ExplicitBeginRule :=
  { config := cfgIfOff
    state_ := State.kInElse
    start_token_ := mkTok .TK_else "else" 0
    condition_expr_level_ := 0
    violations_ := [] }

/-- Witness for C6: with the if flag off, a leading `if` is ignored in
kNormal, and after `else` an `if` short-circuits to kNormal. -/
theorem c6_disabled_flags_witness :
    HandleToken (initRule cfgIfOff) (mkTok .TK_if "if" 0) = initRule cfgIfOff ∧
    HandleToken rInElseWit (mkTok .TK_if "if" 5) =
      { rInElseWit with state_ := State.kNormal } := by
  constructor
  · exact c6_disabled_flags.1 (initRule cfgIfOff) (mkTok .TK_if "if" 0) rfl rfl
  · exact c6_disabled_flags.2.1 rInElseWit (mkTok .TK_if "if" 5) rfl rfl rfl

/-- Modelled from the spec: the boolean-token parsing done by
verible::config::SetBool (common/text/config_utils.cc, not part of this
repository snapshot).  A value must be a valid boolean token; the
canonical tokens `true` and `false` — the forms the rule descriptor's
defaults use — are the valid tokens here. -/
def parseBoolToken (s : String) : Option Bool :=
  if s = "true" then some true
  else if s = "false" then some false
  else none

/-- Identifies which of the eleven flag members a recognized option key's
handler writes (the SetBool handlers registered in
ExplicitBeginRule::Configure). -/
inductive ConfigKey where
  | kIf
  | kElse
  | kAlways
  | kAlwaysComb
  | kAlwaysLatch
  | kAlwaysFf
  | kForever
  | kInitial
  | kFor
  | kForeach
  | kWhile
deriving DecidableEq

/-- The handler table of ExplicitBeginRule::Configure: the eleven
recognized option keys, each naming the flag its SetBool handler sets. -/
def keyTable : List (String × ConfigKey) :=
  [("if_enable", .kIf), ("else_enable", .kElse), ("always_enable", .kAlways),
   ("always_comb_enable", .kAlwaysComb), ("always_latch_enable", .kAlwaysLatch),
   ("always_ff_enable", .kAlwaysFf), ("forever_enable", .kForever),
   ("initial_enable", .kInitial), ("for_enable", .kFor),
   ("foreach_enable", .kForeach), ("while_enable", .kWhile)]

/-- The eleven recognized option keys. -/
def supportedKeys : List String := keyTable.map Prod.fst

/-- Handler lookup by option key, as ParseNameValues does against the
registered handler table; none for an unrecognized key. -/
def keyOfString (k : String) : Option ConfigKey :=
  (keyTable.find? (fun p => p.1 == k)).map Prod.snd

/-- The effect of a recognized key's SetBool handler on the
configuration record. -/
def applyKey (key : ConfigKey) (b : Bool) (cfg : RuleConfig) : RuleConfig :=
  match key with
  | .kIf => { cfg with if_enable_ := b }
  | .kElse => { cfg with else_enable_ := b }
  | .kAlways => { cfg with always_enable_ := b }
  | .kAlwaysComb => { cfg with always_comb_enable_ := b }
  | .kAlwaysLatch => { cfg with always_latch_enable_ := b }
  | .kAlwaysFf => { cfg with always_ff_enable_ := b }
  | .kForever => { cfg with forever_enable_ := b }
  | .kInitial => { cfg with initial_enable_ := b }
  | .kFor => { cfg with for_enable_ := b }
  | .kForeach => { cfg with foreach_enable_ := b }
  | .kWhile => { cfg with while_enable_ := b }

/-- Verification helper (not a code translation): reads the flag member
that a recognized key's handler writes. -/
def getKey (key : ConfigKey) (cfg : RuleConfig) : Bool :=
  match key with
  | .kIf => cfg.if_enable_
  | .kElse => cfg.else_enable_
  | .kAlways => cfg.always_enable_
  | .kAlwaysComb => cfg.always_comb_enable_
  | .kAlwaysLatch => cfg.always_latch_enable_
  | .kAlwaysFf => cfg.always_ff_enable_
  | .kForever => cfg.forever_enable_
  | .kInitial => cfg.initial_enable_
  | .kFor => cfg.for_enable_
  | .kForeach => cfg.foreach_enable_
  | .kWhile => cfg.while_enable_

/-- Modelled from the spec: one step of verible::ParseNameValues
(common/text/config_utils.cc, not part of this snapshot): look the key up
among the registered handlers — an unrecognized key is a structured
failure — then parse the value as a boolean — an invalid boolean token is
a structured failure — and otherwise apply the handler. -/
def configureStep (cfg : RuleConfig) (kv : String × String) : Except String RuleConfig :=
  match keyOfString kv.1 with
  | none => Except.error ("unsupported parameter " ++ kv.1)
  | some key =>
    match parseBoolToken kv.2 with
    | none => Except.error ("invalid boolean value for parameter " ++ kv.1)
    | some b => Except.ok (applyKey key b cfg)

/-- Modelled from the spec: verible::ParseNameValues iterates the parsed
name/value pairs of the configuration string in order and fails fast on
the first bad pair. -/
def configureFrom (cfg : RuleConfig) : List (String × String) → Except String RuleConfig
  | [] => Except.ok cfg
  | kv :: rest =>
    match configureStep cfg kv with
    | Except.error e => Except.error e
    | Except.ok c => configureFrom c rest

/-- ExplicitBeginRule::Configure: parse the configuration (given here as
its list of name/value pairs) against the handler table, starting from
the all-defaults configuration. -/
def Configure (pairs : List (String × String)) : Except String RuleConfig :=
  configureFrom {} pairs

theorem keyOfString_mem (s : String) (key : ConfigKey)
    (h : keyOfString s = some key) : (s, key) ∈ keyTable := by
  unfold keyOfString at h
  rw [Option.map_eq_some'] at h
  obtain ⟨p, hfind, hsnd⟩ := h
  have hmem : p ∈ keyTable := List.mem_of_find?_eq_some hfind
  have hfst : p.1 = s := by simpa using List.find?_some hfind
  have : p = (s, key) := by
    obtain ⟨p1, p2⟩ := p
    simp_all
  rw [← this]
  exact hmem

theorem keyOfString_none_iff (s : String) :
    keyOfString s = none ↔ s ∉ supportedKeys := by
  unfold keyOfString supportedKeys
  rw [Option.map_eq_none', List.find?_eq_none]
  simp [List.mem_map, beq_iff_eq]
  constructor
  · intro h p hp
    exact h s p hp rfl
  · intro h p1 p2 hp hps
    subst hps
    exact h p2 hp

theorem keyOfString_inj (s1 s2 : String) (key : ConfigKey)
    (h1 : keyOfString s1 = some key) (h2 : keyOfString s2 = some key) :
    s1 = s2 := by
  have hm1 := keyOfString_mem s1 key h1
  have hm2 := keyOfString_mem s2 key h2
  have hpw : ∀ p ∈ keyTable, ∀ q ∈ keyTable, p.2 = q.2 → p.1 = q.1 := by decide
  exact hpw (s1, key) hm1 (s2, key) hm2 rfl

theorem applyKey_preserve (key kk : ConfigKey) (b : Bool) (cfg : RuleConfig)
    (hne : kk ≠ key) : getKey kk (applyKey key b cfg) = getKey kk cfg := by
  cases key <;> cases kk <;> first | exact absurd rfl hne | rfl

theorem getKey_default (key : ConfigKey) : getKey key ({} : RuleConfig) = true := by
  cases key <;> rfl

theorem configureFrom_ok_iff (pairs : List (String × String)) (cfg0 : RuleConfig) :
    (∃ cfg, configureFrom cfg0 pairs = Except.ok cfg) ↔
      ∀ kv ∈ pairs, keyOfString kv.1 ≠ none ∧ parseBoolToken kv.2 ≠ none := by
  induction pairs generalizing cfg0 with
  | nil => simp [configureFrom]
  | cons kv rest ih =>
    cases hk : keyOfString kv.1 with
    | none => simp [configureFrom, configureStep, hk]
    | some key =>
      cases hpb : parseBoolToken kv.2 with
      | none => simp [configureFrom, configureStep, hk, hpb]
      | some b => simp [configureFrom, configureStep, hk, hpb, ih]

theorem configureFrom_preserve (pairs : List (String × String)) :
    ∀ (cfg0 cfg : RuleConfig), configureFrom cfg0 pairs = Except.ok cfg →
      ∀ (k : String) (key : ConfigKey), keyOfString k = some key →
        k ∉ pairs.map Prod.fst → getKey key cfg = getKey key cfg0 := by
  induction pairs with
  | nil =>
    intro cfg0 cfg h k key hks hk
    simp only [configureFrom, Except.ok.injEq] at h
    subst h
    rfl
  | cons kv rest ih =>
    intro cfg0 cfg h k key hks hk
    simp only [List.map_cons, List.mem_cons, not_or] at hk
    simp only [configureFrom] at h
    cases hstep : configureStep cfg0 kv with
    | error e => rw [hstep] at h; cases h
    | ok c =>
      rw [hstep] at h
      rw [ih c cfg h k key hks hk.2]
      unfold configureStep at hstep
      cases hkk : keyOfString kv.1 with
      | none => rw [hkk] at hstep; cases hstep
      | some key2 =>
        rw [hkk] at hstep
        cases hpb : parseBoolToken kv.2 with
        | none => rw [hpb] at hstep; cases hstep
        | some b =>
          rw [hpb] at hstep
          injection hstep with hc
          rw [← hc]
          apply applyKey_preserve
          intro heq
          exact hk.1 (keyOfString_inj k kv.1 key hks (by rw [← heq] at hkk; exact hkk))

/-- C7: Configure fails exactly when some pair of the configuration has a
key outside the eleven recognized keys or a value that is not a valid
boolean token (and the failure concerns configuration only — no token has
been scanned); when Configure succeeds, every recognized key not
mentioned in the configuration keeps its default value of enabled. -/
theorem c7_configure_behavior :
    supportedKeys =
      ["if_enable", "else_enable", "always_enable", "always_comb_enable",
       "always_latch_enable", "always_ff_enable", "forever_enable",
       "initial_enable", "for_enable", "foreach_enable", "while_enable"] ∧
    ∀ (pairs : List (String × String)),
      ((∃ e, Configure pairs = Except.error e) ↔
        ∃ kv ∈ pairs, kv.1 ∉ supportedKeys ∨ parseBoolToken kv.2 = none) ∧
      (∀ cfg, Configure pairs = Except.ok cfg →
        ∀ (k : String) (key : ConfigKey), keyOfString k = some key →
          k ∉ pairs.map Prod.fst → getKey key cfg = true) := by
  refine ⟨rfl, ?_⟩
  intro pairs
  constructor
  · cases hc : Configure pairs with
    | ok c =>
      have hall := (configureFrom_ok_iff pairs {}).mp ⟨c, hc⟩
      apply iff_of_false
      · rintro ⟨e, he⟩
        exact Except.noConfusion he
      · rintro ⟨kv, hkv, hbad⟩
        rcases hbad with hbad | hbad
        · exact (hall kv hkv).1 ((keyOfString_none_iff kv.1).mpr hbad)
        · exact (hall kv hkv).2 hbad
    | error e =>
      apply iff_of_true ⟨e, rfl⟩
      by_contra hno
      push_neg at hno
      have hgood : ∀ kv ∈ pairs, keyOfString kv.1 ≠ none ∧ parseBoolToken kv.2 ≠ none := by
        intro kv hkv
        rcases hno kv hkv with ⟨h1, h2⟩
        refine ⟨?_, h2⟩
        intro hnone
        exact (keyOfString_none_iff kv.1).mp hnone (by simpa using h1)
      rcases (configureFrom_ok_iff pairs {}).mpr hgood with ⟨cfg, hcfg⟩
      have hcfg2 : Configure pairs = Except.ok cfg := hcfg
      exact Except.noConfusion (hc.symm.trans hcfg2)
  · intro cfg hok k key hks hmem
    rw [configureFrom_preserve pairs {} cfg hok k key hks hmem]
    exact getKey_default key

/-- Witness for C7: configuring only if_enable to false succeeds, and the
unmentioned recognized key else_enable keeps its default of enabled. -/
theorem c7_configure_behavior_witness :
    Configure [("if_enable", "false")] = Except.ok cfgIfOff ∧
    getKey ConfigKey.kElse cfgIfOff = true := by
  have hok : Configure [("if_enable", "false")] = Except.ok cfgIfOff := by rfl
  refine ⟨hok, ?_⟩
  exact (c7_configure_behavior.2 [("if_enable", "false")]).2 cfgIfOff hok
    "else_enable" ConfigKey.kElse (by rfl) (by decide)

/-- C8: the scan is deterministic and instance-pure: two fresh engine
instances configured identically and fed the identical token sequence via
HandleToken produce identical violation sets from Report (in this pure
embedding the engine is a function of configuration and token sequence,
so determinism is definitional). -/
theorem c8_deterministic :
    ∀ (cfg1 cfg2 : RuleConfig) (tokens : List TokenInfo), cfg1 = cfg2 →
      Report (runTokens (initRule cfg1) tokens) =
        Report (runTokens (initRule cfg2) tokens) := by
  intro cfg1 cfg2 tokens h
  rw [h]

/-- Witness for C8: two default-configured fresh instances agree on the
violating stream. -/
theorem c8_deterministic_witness :
    Report (runTokens (initRule {}) streamIfNoBegin) =
      Report (runTokens (initRule {}) streamIfNoBegin) :=
  c8_deterministic {} {} streamIfNoBegin rfl

/-- Token stream of `if (x` — the stream ends inside the condition. -/
def streamIfOpenParen : List TokenInfo :=
  [mkTok .TK_if "if" 0, mkTok .lparen "(" 3, mkTok (.otherTok 1) "x" 4]

/-- Token stream of `if (x)` — the stream ends right after the condition
closes, with a begin still pending. -/
def streamIfClosedParen : List TokenInfo :=
  [mkTok .TK_if "if" 0, mkTok .lparen "(" 3, mkTok (.otherTok 1) "x" 4,
   mkTok .rparen ")" 5]

/-- C9: Report performs no end-of-stream flush — it returns the
accumulated violations unchanged — so a stream that ends while a
construct is still pending (automaton left in kInCondition or
kExpectBegin, as after `if (x` or `if (x)`) yields zero violations for
that pending trigger. -/
theorem c9_no_eos_flush :
    (∀ r : ExplicitBeginRule, Report r = r.violations_) ∧
    (runTokens (initRule {}) streamIfOpenParen).state_ = State.kInCondition ∧
    Report (runTokens (initRule {}) streamIfOpenParen) = [] ∧
    (runTokens (initRule {}) streamIfClosedParen).state_ = State.kExpectBegin ∧
    Report (runTokens (initRule {}) streamIfClosedParen) = [] := by
  exact ⟨fun r => rfl, by decide, by decide, by decide, by decide⟩

/-- Token stream of `while (a if (b) c foreach x` — the while condition's
parentheses never fully close. -/
def streamUnclosed : List TokenInfo :=
  [mkTok .TK_while "while" 0, mkTok .lparen "(" 6, mkTok (.otherTok 1) "a" 7,
   mkTok .TK_if "if" 9, mkTok .lparen "(" 12, mkTok (.otherTok 2) "b" 13,
   mkTok .rparen ")" 14, mkTok (.otherTok 3) "c" 16,
   mkTok .TK_foreach "foreach" 18, mkTok (.otherTok 4) "x" 26]

/-- C10: the engine tracks at most one pending construct — outside
kNormal, no token other than an `if` seen in kInElse ever records a new
trigger token; in kInCondition every token that is not a parenthesis is
discarded outright, so monitored keywords inside a condition open no
nested check, and while a condition never fully closes all later
monitored keywords in the stream go unchecked. -/
theorem c10_single_pending :
    (∀ (r : ExplicitBeginRule) (token : TokenInfo),
      r.state_ ≠ State.kNormal →
      ¬(r.state_ = State.kInElse ∧ token.token_enum = VTokenEnum.TK_if) →
      (HandleToken r token).start_token_ = r.start_token_) ∧
    (∀ (r : ExplicitBeginRule) (token : TokenInfo),
      r.state_ = State.kInCondition →
      token.token_enum ≠ VTokenEnum.lparen → token.token_enum ≠ VTokenEnum.rparen →
      HandleToken r token = r) ∧
    Report (runTokens (initRule {}) streamUnclosed) = [] ∧
    (runTokens (initRule {}) streamUnclosed).state_ = State.kInCondition := by
  refine ⟨?_, ?_, by decide, by decide⟩
  · intro r token hns hnei
    obtain ⟨e, txt, loc⟩ := token
    cases hsr : r.state_ <;> cases e <;>
      simp_all [HandleToken, isFormatting, raiseViolationOn] <;>
      split <;> rfl
  · intro r token hs hl hr2
    obtain ⟨e, txt, loc⟩ := token
    cases e <;> simp_all [HandleToken, isFormatting]

/-- Witness for C10: in kInCondition (the running `if` check), a
`foreach` keyword is discarded and records nothing. -/
theorem c10_single_pending_witness :
    HandleToken rInCondWit (mkTok .TK_foreach "foreach" 30) = rInCondWit :=
  c10_single_pending.2.1 rInCondWit (mkTok .TK_foreach "foreach" 30) rfl
    (by decide) (by decide)

end Verible
